import Mathlib

/-!
Verification development for the `api-tester-routes` repository.

The Python sources embedded here are `src/api_tester.py` (class `APITester`:
`process_dynamic_content`, `prepare_request_data`, `send_request`,
`run_performance_test`) and `src/dynamic_content_generator.py`
(class `DynamicContentGenerator`).

Modelling conventions:
  * Python strings are embedded as `List Char`; the Python string methods used
    by the source (`strip`, `lower`, `isdigit`, `split`, `startswith`,
    `endswith`, slicing) are re-implemented on `List Char` below, restricted to
    the ASCII inputs the tool deals in.
  * JSON-like Python data (dict / list / str / int / float / bool / None) is
    embedded as the mutual inductive `JVal` / `JList` / `JDict`; dict insertion
    order is kept, mirroring Python dicts.
  * Randomness: the process-wide random source consumed by
    `DynamicContentGenerator` is modelled as an abstract entropy source
    `Entropy` together with a draw counter that advances on every successful
    generator invocation.  Exception *messages* (`str(e)`) of the Python
    exceptions raised inside generator calls are modelled as fixed descriptive
    strings; the `"Error generating content: "` and `"Unknown generator: "`
    frames around them are byte-exact from `api_tester.py`.
  * The HTTP transport (`requests.request`) is an external collaborator; a test
    run's transport behaviour is an oracle `Nat → Outcome` giving, for each
    iteration, either a response status code or `none` for a raised transport
    exception, plus the elapsed wall-clock duration (modelled as `ℚ`).
    The truthiness test `if response:` on a `requests.Response` is its `ok`
    property, i.e. `status_code < 400`.
  * Reference semantics: `run_performance_test` copies the template dicts
    shallowly (`dict.copy()`) and `process_dynamic_content` mutates dicts in
    place.  This aliasing is captured by a heap model (`HVal`, `Heap`) in which
    dict objects live at addresses and `.copy()` allocates a new address
    sharing the old entry values.  The pure `processDC` walker is the same
    function read as a value transformer on tree-shaped (alias-free) inputs.
-/

/-! ## Python string primitives on `List Char` -/

/-- Characters treated as whitespace by Python's `str.strip` (ASCII range). -/
def isSpaceChar (c : Char) : Bool :=
  c = ' ' || c = '\t' || c = '\n' || c = '\r' || c = '\x0b' || c = '\x0c'

/-- Python `str.strip()`. -/
def pyStrip (s : List Char) : List Char :=
  ((s.dropWhile isSpaceChar).reverse.dropWhile isSpaceChar).reverse

/-- Python `str.lower()` (ASCII). -/
def pyLower (s : List Char) : List Char :=
  s.map Char.toLower

/-- Python `str.isdigit()` (ASCII): nonempty and all characters are digits. -/
def pyIsDigit (s : List Char) : Bool :=
  !s.isEmpty && s.all Char.isDigit

/-- Python `int(s)` on an all-digit string. -/
def digitsToNat (s : List Char) : Nat :=
  s.foldl (fun n c => 10 * n + (c.toNat - 48)) 0

/-- Python `s.startswith(p)`. -/
def isPre : List Char → List Char → Bool
  | [], _ => true
  | _ :: _, [] => false
  | p :: ps, c :: cs => p = c && isPre ps cs

/-- Python `s.endswith(p)`. -/
def endsWith (p s : List Char) : Bool :=
  isPre p.reverse s.reverse

/-- Python `s.split(sep)` for a one-character separator: `"".split(",") = [""]`,
`",".split(",") = ["", ""]`, and so on. -/
def splitOnChar (sep : Char) : List Char → List (List Char)
  | [] => [[]]
  | c :: rest =>
    match splitOnChar sep rest with
    | [] => [[]]
    | g :: gs => if c = sep then [] :: g :: gs else (c :: g) :: gs

/-- Python `s.split(sep, 1)` for a one-character separator: the part before the
first occurrence, and (when the separator occurs) the part after it. -/
def splitFirst (sep : Char) : List Char → List Char × Option (List Char)
  | [] => ([], none)
  | c :: rest =>
    if c = sep then ([], some rest)
    else
      let p := splitFirst sep rest
      (c :: p.1, p.2)

/-! ## JSON-like values

Python JSON data as handed to `process_dynamic_content`: dicts keep insertion
order, so they are embedded as ordered key/value sequences. -/

mutual
inductive JVal where
  | str (s : List Char)
  | int (n : Int)
  | num (q : ℚ)
  | bool (b : Bool)
  | null
  | list (xs : JList)
  | dict (kvs : JDict)
deriving DecidableEq
inductive JList where
  | nil
  | cons (hd : JVal) (tl : JList)
deriving DecidableEq
inductive JDict where
  | nil
  | cons (k : List Char) (v : JVal) (tl : JDict)
deriving DecidableEq
end

/-- The keys of an embedded dict, in order. -/
def JDict.keys : JDict → List (List Char)
  | .nil => []
  | .cons k _ tl => k :: JDict.keys tl

/-! ## The keyword-argument parser of `process_dynamic_content`
(`src/api_tester.py` lines 54-72). -/

/-- Literal `"true"`. -/
def trueChars : List Char := "true".data

/-- Literal `"false"`. -/
def falseChars : List Char := "false".data

/-- Value coercion applied to one (already stripped) `key=value` value,
`src/api_tester.py` lines 63-71: `"true"`/`"false"` case-insensitively to
booleans, all-digit strings via `int(...)`, strings wrapped in double quotes to
their dequoted content, anything else kept as the raw string. -/
def parseVal (v : List Char) : JVal :=
  if pyLower v = trueChars then .bool true
  else if pyLower v = falseChars then .bool false
  else if pyIsDigit v then .int (digitsToNat v)
  else if isPre [ '"' ] v && endsWith [ '"' ] v then .str ((v.drop 1).dropLast)
  else .str v

/-- `params[k] = v` on the ordered dict of parsed parameters: overwrite in
place if the key exists, else append. -/
def insertParam (ps : List (List Char × JVal)) (k : List Char) (v : JVal) :
    List (List Char × JVal) :=
  match ps with
  | [] => [(k, v)]
  | (k', v') :: rest =>
    if k' = k then (k', v) :: rest else (k', v') :: insertParam rest k v

/-- The parameter-list parser, `src/api_tester.py` lines 54-72: the
parenthesized content is split on every comma (a naive split, not
bracket-aware), each fragment containing `=` is split at the first `=`,
key and value are stripped, and the value is coerced by `parseVal`.
Fragments without `=` are skipped. -/
def parseParams (ps : List Char) : List (List Char × JVal) :=
  if ps.isEmpty then []
  else
    (splitOnChar ',' ps).foldl
      (fun acc pair =>
        if pair.contains '=' then
          match splitFirst '=' pair with
          | (kRaw, some vRaw) => insertParam acc (pyStrip kRaw) (parseVal (pyStrip vRaw))
          | (_, none) => acc
        else acc)
      []

/-! ## The generator registry (`src/dynamic_content_generator.py`)

Each static method of `DynamicContentGenerator` is modelled at the granularity
of Python's keyword-argument binding and of the argument validation actually
performed by its body:

  * binding `generator_method(**params)` raises `TypeError` when a keyword is
    not in the method's signature (or a required one is missing);
  * `random.randint(a, b)` requires int-like arguments (`bool` counts as an
    int: `True = 1`, `False = 0`), raising `TypeError` otherwise, and raises
    `ValueError` when `a > b`;
  * `range(n)` likewise requires an int-like argument;
  * calling a non-callable (the parsed `generator_func` argument of
    `generate_list` is always a string / int / bool) raises `TypeError`;
  * `random.choice` on an empty sequence raises `IndexError`, and on an int or
    bool raises `TypeError`.

The randomness consumed from the process-wide random source is abstracted by
an `Entropy` oracle indexed by a draw counter; the counter advances on every
generator invocation that returns normally.  `generate_date`'s body (ISO-8601
parsing via `datetime.fromisoformat` plus a random day offset) is abstracted
whole by the `dateRes` field of the oracle: it may return a date string or
raise; no claim exercises it. -/

mutual
/-- A value a generator invocation can return: every reachable return value of
the `DynamicContentGenerator` methods is a string, an int, a bool, or a list
(only `generate_list` with `length <= 0` returns a list, and then an empty
one). -/
inductive SVal where
  | str (s : List Char)
  | int (n : Int)
  | bool (b : Bool)
  | arr (xs : SList)
deriving DecidableEq
inductive SList where
  | nil
  | cons (hd : SVal) (tl : SList)
deriving DecidableEq
end

mutual
/-- Read a generator return value back as a JSON value. -/
def svToJVal : SVal → JVal
  | .str s => .str s
  | .int n => .int n
  | .bool b => .bool b
  | .arr xs => .list (slToJList xs)
def slToJList : SList → JList
  | .nil => .nil
  | .cons x xs => .cons (svToJVal x) (slToJList xs)
end

/-- Abstract entropy source: field `f` applied to draw index `r` is the value
the corresponding Python generator produces on the invocation that consumes
draw `r` of the process-wide random source. -/
structure Entropy where
  text : Nat → List Char
  paragraph : Nat → List Char
  uuid : Nat → List Char
  email : Nat → List Char
  phone : Nat → List Char
  dateRes : Nat → List (List Char × JVal) → Except (List Char) (List Char)
  numberDraw : Nat → Int → Int → Int
  boolDraw : Nat → Bool
  pickIdx : Nat → Nat

/-- Keyword lookup in the parsed parameter dict. -/
def lookupArg (ps : List (List Char × JVal)) (k : List Char) : Option JVal :=
  match ps with
  | [] => none
  | (k', v) :: rest => if k' = k then some v else lookupArg rest k

/-- Python keyword binding: every supplied keyword must be in the allowed
signature, else `TypeError`. -/
def kwSubset (ps : List (List Char × JVal)) (allowed : List (List Char)) : Bool :=
  ps.all (fun kv => allowed.contains kv.1)

/-- Int-likeness as accepted by `random.randint` / `range`: Python bools are
ints (`True = 1`, `False = 0`). -/
def intLike : JVal → Option Int
  | .int n => some n
  | .bool b => some (if b then 1 else 0)
  | _ => none

/-- Modelled message of a Python `TypeError` (`str(e)` abstracted). -/
def msgTypeErr : List Char := "TypeError".data

/-- Modelled message of a Python `ValueError` (`str(e)` abstracted). -/
def msgValueErr : List Char := "ValueError".data

/-- Modelled message of a Python `IndexError` (`str(e)` abstracted). -/
def msgIndexErr : List Char := "IndexError".data

/-- `generate_text(min_words=3, max_words=10)`: `randint(min_words, max_words)`
then a slice of `lorem.text()`; the produced text is entropy. -/
def genText (E : Entropy) (ps : List (List Char × JVal)) (r : Nat) :
    Except (List Char) SVal × Nat :=
  if kwSubset ps [ "min_words".data, "max_words".data ] then
    match intLike ((lookupArg ps ("min_words".data)).getD (.int 3)),
          intLike ((lookupArg ps ("max_words".data)).getD (.int 10)) with
    | some a, some b =>
      if a ≤ b then (.ok (.str (E.text r)), r + 1) else (.error msgValueErr, r)
    | _, _ => (.error msgTypeErr, r)
  else (.error msgTypeErr, r)

/-- `generate_paragraph(min_sentences=2, max_sentences=5)`: the body ignores
both arguments and returns `lorem.paragraph()`, so any argument values are
accepted. -/
def genParagraph (E : Entropy) (ps : List (List Char × JVal)) (r : Nat) :
    Except (List Char) SVal × Nat :=
  if kwSubset ps [ "min_sentences".data, "max_sentences".data ] then
    (.ok (.str (E.paragraph r)), r + 1)
  else (.error msgTypeErr, r)

/-- `generate_uuid()`: no keyword accepted. -/
def genUuid (E : Entropy) (ps : List (List Char × JVal)) (r : Nat) :
    Except (List Char) SVal × Nat :=
  if kwSubset ps [] then (.ok (.str (E.uuid r)), r + 1) else (.error msgTypeErr, r)

/-- `generate_email()`: no keyword accepted. -/
def genEmail (E : Entropy) (ps : List (List Char × JVal)) (r : Nat) :
    Except (List Char) SVal × Nat :=
  if kwSubset ps [] then (.ok (.str (E.email r)), r + 1) else (.error msgTypeErr, r)

/-- `generate_phone()`: no keyword accepted. -/
def genPhone (E : Entropy) (ps : List (List Char × JVal)) (r : Nat) :
    Except (List Char) SVal × Nat :=
  if kwSubset ps [] then (.ok (.str (E.phone r)), r + 1) else (.error msgTypeErr, r)

/-- `generate_date(start_date=None, end_date=None)`: parsing and the random
day offset are abstracted by the oracle (see section header). -/
def genDate (E : Entropy) (ps : List (List Char × JVal)) (r : Nat) :
    Except (List Char) SVal × Nat :=
  if kwSubset ps [ "start_date".data, "end_date".data ] then
    match E.dateRes r ps with
    | .ok s => (.ok (.str s), r + 1)
    | .error m => (.error m, r)
  else (.error msgTypeErr, r)

/-- `generate_number(min_val=0, max_val=100)`: `randint(min_val, max_val)`. -/
def genNumber (E : Entropy) (ps : List (List Char × JVal)) (r : Nat) :
    Except (List Char) SVal × Nat :=
  if kwSubset ps [ "min_val".data, "max_val".data ] then
    match intLike ((lookupArg ps ("min_val".data)).getD (.int 0)),
          intLike ((lookupArg ps ("max_val".data)).getD (.int 100)) with
    | some a, some b =>
      if a ≤ b then (.ok (.int (E.numberDraw r a b)), r + 1)
      else (.error msgValueErr, r)
    | _, _ => (.error msgTypeErr, r)
  else (.error msgTypeErr, r)

/-- `generate_boolean()`: no keyword accepted. -/
def genBoolean (E : Entropy) (ps : List (List Char × JVal)) (r : Nat) :
    Except (List Char) SVal × Nat :=
  if kwSubset ps [] then (.ok (.bool (E.boolDraw r)), r + 1)
  else (.error msgTypeErr, r)

/-- `generate_list(generator_func, length=3, **kwargs)`: `generator_func` is
required (missing ⇒ `TypeError` at binding); `range(length)` needs an int-like
`length`; with `length <= 0` the comprehension is empty and returns `[]`
without ever calling `generator_func`; otherwise the first call of the parsed
(non-callable) `generator_func` raises `TypeError`. -/
def genList (ps : List (List Char × JVal)) (r : Nat) :
    Except (List Char) SVal × Nat :=
  match lookupArg ps ("generator_func".data) with
  | none => (.error msgTypeErr, r)
  | some _ =>
    match intLike ((lookupArg ps ("length".data)).getD (.int 3)) with
    | none => (.error msgTypeErr, r)
    | some li =>
      if li ≤ 0 then (.ok (.arr .nil), r + 1) else (.error msgTypeErr, r)

/-- `from_options(options)`: `options` is required; `random.choice` works on a
nonempty string (picks one character), raises `IndexError` on an empty one and
`TypeError` on an int or bool.  (Unreachable through `process_dynamic_content`,
whose marker test only passes names beginning `generate_`; kept for
completeness of the `getattr` surface.) -/
def fromOptionsGen (E : Entropy) (ps : List (List Char × JVal)) (r : Nat) :
    Except (List Char) SVal × Nat :=
  match lookupArg ps ("options".data) with
  | none => (.error msgTypeErr, r)
  | some (.str s) =>
    match s with
    | [] => (.error msgIndexErr, r)
    | c :: cs => (.ok (.str [ (c :: cs).getD (E.pickIdx r % (c :: cs).length) c ]), r + 1)
  | some _ => (.error msgTypeErr, r)

/-- `getattr(self.content_generator, func_name, None)` followed by the
invocation `generator_method(**params)`: `none` models "no such attribute /
not callable", an `Except` result models a normal return or a raised
exception. -/
def callGenerator (E : Entropy) (name : List Char) (ps : List (List Char × JVal))
    (r : Nat) : Option (Except (List Char) SVal × Nat) :=
  if name = ("generate_text".data) then some (genText E ps r)
  else if name = ("generate_paragraph".data) then some (genParagraph E ps r)
  else if name = ("generate_uuid".data) then some (genUuid E ps r)
  else if name = ("generate_email".data) then some (genEmail E ps r)
  else if name = ("generate_phone".data) then some (genPhone E ps r)
  else if name = ("generate_date".data) then some (genDate E ps r)
  else if name = ("generate_number".data) then some (genNumber E ps r)
  else if name = ("generate_boolean".data) then some (genBoolean E ps r)
  else if name = ("generate_list".data) then some (genList ps r)
  else if name = ("from_options".data) then some (fromOptionsGen E ps r)
  else none

/-! ## The marker branch of `process_dynamic_content`
(`src/api_tester.py` lines 45-81). -/

/-- The literal `"$generate_"` tested by `data.startswith("$generate_")`. -/
def genHead : List Char := "$generate_".data

/-- The literal frame `f"Error generating content: {str(e)}"`. -/
def errHead : List Char := "Error generating content: ".data

/-- The literal frame `f"Unknown generator: {func_name}"`. -/
def unkHead : List Char := "Unknown generator: ".data

/-- The marker branch, `src/api_tester.py` lines 45-81, entered when the
string starts with `"$generate_"`: strip the `$`, take the function name as
everything before the first `(`, slice out the parenthesized content
(`func_str[len(func_name)+1:-1]`), parse the parameters, look the generator up
and invoke it.  An unknown or non-callable name yields the
`"Unknown generator: ..."` string; an exception raised by the invocation is
caught and yields the `"Error generating content: ..."` string. -/
def expandMarker (E : Entropy) (r : Nat) (s : List Char) : SVal × Nat :=
  let fs := s.drop 1
  let fn := fs.takeWhile (fun c => c ≠ '(')
  let ps := parseParams ((fs.drop (fn.length + 1)).dropLast)
  match callGenerator E fn ps r with
  | some (.ok v, r') => (v, r')
  | some (.error m, r') => (.str (errHead ++ m), r')
  | none => (.str (unkHead ++ fn), r)

/-! ## The recursive walker `process_dynamic_content`
(`src/api_tester.py` lines 32-83), as a value transformer.

Python mutates dicts in place and rebuilds lists; on tree-shaped (alias-free)
data the resulting value is the structure with every dict value and list
element processed in order and every `"$generate_"`-prefixed string replaced
by its marker expansion.  The draw counter of the entropy source is threaded
depth-first in Python evaluation order. -/

mutual
def processDC (E : Entropy) : JVal → Nat → JVal × Nat
  | .str s, r =>
    if isPre genHead s then
      let p := expandMarker E r s
      (svToJVal p.1, p.2)
    else (.str s, r)
  | .dict d, r =>
    let p := processDict E d r
    (.dict p.1, p.2)
  | .list l, r =>
    let p := processList E l r
    (.list p.1, p.2)
  | v, r => (v, r)
def processList (E : Entropy) : JList → Nat → JList × Nat
  | .nil, r => (.nil, r)
  | .cons x xs, r =>
    let p := processDC E x r
    let q := processList E xs p.2
    (.cons p.1 q.1, q.2)
def processDict (E : Entropy) : JDict → Nat → JDict × Nat
  | .nil, r => (.nil, r)
  | .cons k v tl, r =>
    let p := processDC E v r
    let q := processDict E tl p.2
    (.cons k p.1 q.1, q.2)
end

/-- A concrete entropy source used for closed evaluations. -/
def entropy0 : Entropy where
  text _ := "lorem ipsum".data
  paragraph _ := "Lorem ipsum dolor.".data
  uuid n := 'u' :: Nat.toDigits 10 n
  email _ := "abcdefgh@qwerty.com".data
  phone _ := "+12005551000".data
  dateRes _ _ := .ok ("2024-01-01".data)
  numberDraw _ a _ := a
  boolDraw _ := true
  pickIdx _ := 0

/-! ## The performance harness `run_performance_test`
(`src/api_tester.py` lines 114-168).

The transport is an oracle `Nat → Outcome`: iteration `i`'s `send_request`
either stores a `requests.Response` (modelled by its status code) or catches a
transport exception and returns `None`; `tester.duration` is recorded in both
cases.  The guard `if response:` is Python truthiness of
`requests.Response` — its `ok` property, `status_code < 400` — and is `False`
for `None`. -/

/-- The observable result of one `send_request` call: `resp` is the returned
`requests.Response`'s status code, or `none` when a transport exception was
caught and `None` returned; `duration` is the recorded elapsed time. -/
structure Outcome where
  resp : Option Nat
  duration : ℚ
deriving DecidableEq

/-- Python truthiness of `send_request`'s return value: `None` is falsy and a
`requests.Response` is truthy iff `status_code < 400` (its `ok` property). -/
def truthy (o : Outcome) : Bool :=
  match o.resp with
  | some c => c < 400
  | none => false

/-- The status code appended by `status_codes.append(response.status_code)`
(only evaluated on truthy outcomes, where a response is present). -/
def statusOf (o : Outcome) : Nat := (o.resp).getD 0

/-- The sequential branch, `src/api_tester.py` lines 142-152: for each of the
`num_requests` iterations run `send_request` on a fresh tester, and when the
response is truthy append its duration and status code. -/
def collectSeq (t : Nat → Outcome) : Nat → List ℚ × List Nat
  | 0 => ([], [])
  | n + 1 =>
    let acc := collectSeq t n
    let o := t n
    if truthy o then (acc.1 ++ [o.duration], acc.2 ++ [statusOf o]) else acc

/-- A `concurrent.futures` future as observed by this harness.  The concurrent
branch calls `future.result()` immediately after `executor.submit(...)`, so by
the time the future is ever observed its task has already run to completion;
the wrapper holds exactly that completed result. -/
structure Future (α : Type) where
  res : α

/-- `executor.submit(tester.send_request)`: the pool (whose previously
submitted task, if any, has already been awaited) starts the task and the
future completes with its result. -/
def submitTask {α : Type} (f : Unit → α) : Future α := ⟨f ()⟩

/-- `future.result()`: blocks until the task finishes and returns its value. -/
def awaitResult {α : Type} (fu : Future α) : α := fu.res

/-- The concurrent branch, `src/api_tester.py` lines 129-141: for each
iteration, submit `send_request` on a fresh tester to the pool and immediately
await `future.result()` before the loop continues. -/
def collectConc (t : Nat → Outcome) : Nat → List ℚ × List Nat
  | 0 => ([], [])
  | n + 1 =>
    let acc := collectConc t n
    let fu := submitTask (fun _ => t n)
    let o := awaitResult fu
    if truthy o then (acc.1 ++ [o.duration], acc.2 ++ [statusOf o]) else acc

/-- Python `sum` over the durations, as used by `statistics.mean`. -/
def qsum : List ℚ → ℚ
  | [] => 0
  | x :: xs => x + qsum xs

/-- Python `min` over a nonempty list (the `[]` case is never reached: the
caller returns the all-failed error first). -/
def listMin : List ℚ → ℚ
  | [] => 0
  | [x] => x
  | x :: y :: tl => min x (listMin (y :: tl))

/-- Python `max` over a nonempty list (the `[]` case is never reached). -/
def listMax : List ℚ → ℚ
  | [] => 0
  | [x] => x
  | x :: y :: tl => max x (listMax (y :: tl))

/-- Insertion step of the sort underlying `statistics.median`. -/
def insertQ (x : ℚ) : List ℚ → List ℚ
  | [] => [x]
  | y :: ys => if x ≤ y then x :: y :: ys else y :: insertQ x ys

/-- `sorted(data)` (as a value: the unique sorted rearrangement). -/
def sortQ : List ℚ → List ℚ
  | [] => []
  | x :: xs => insertQ x (sortQ xs)

/-- `statistics.median`: middle element of the sorted data for odd length,
average of the two middle elements for even length (callers guarantee
nonemptiness). -/
def medianQ (l : List ℚ) : ℚ :=
  let s := sortQ l
  let n := s.length
  if n % 2 = 1 then s.getD (n / 2) 0
  else (s.getD (n / 2 - 1) 0 + s.getD (n / 2) 0) / 2

/-- `dict((code, status_codes.count(code)) for code in set(status_codes))`,
with the (unspecified) Python set iteration order canonicalized to first
occurrence. -/
def statusHist (codes : List Nat) : List (Nat × Nat) :=
  codes.dedup.map (fun c => (c, codes.count c))

/-- The Python exception that can escape `run_performance_test`:
`ThreadPoolExecutor(max_workers=0)` raises `ValueError`. -/
inductive PyExc where
  | valueError
deriving DecidableEq

/-- The dictionary returned by `run_performance_test`: either the
`{"error": "All requests failed"}` record or the statistics record of
`src/api_tester.py` lines 157-168. -/
inductive PerfResult where
  | err (msg : List Char)
  | stats (url method : List Char) (requests_sent successful_requests : Nat)
      (min_time max_time avg_time median_time : ℚ)
      (status_codes : List (Nat × Nat))
deriving DecidableEq

/-- The literal `"All requests failed"`. -/
def allFailedMsg : List Char := "All requests failed".data

/-- `run_performance_test(num_requests, concurrent)`, `src/api_tester.py`
lines 114-168.  In concurrent mode the pool is created with
`max_workers = min(num_requests, 10)`; with `num_requests = 0` that is `0` and
the `ThreadPoolExecutor` constructor raises `ValueError` out of the call.
Otherwise the chosen branch collects durations and status codes of the truthy
outcomes; if none were collected the explicit all-failed error record is
returned, else the statistics record. -/
def runPerformanceTest (url method : List Char) (t : Nat → Outcome)
    (num_requests : Nat) (concurrent : Bool) : Except PyExc PerfResult :=
  if concurrent && num_requests == 0 then .error .valueError
  else
    let dc := if concurrent then collectConc t num_requests else collectSeq t num_requests
    if dc.1.isEmpty then .ok (.err allFailedMsg)
    else
      .ok (.stats url method num_requests dc.1.length
        (listMin dc.1) (listMax dc.1)
        (qsum dc.1 / (dc.1.length : ℚ)) (medianQ dc.1)
        (statusHist dc.2))

/-! ## Scheduling traces of the two branches

Each iteration's `send_request` occupies the interval between a `start` event
(a pool worker picks the submitted task up — in the concurrent branch a worker
is always free at submission time, because the previous future was awaited
before the loop continued) and a `finish` event (the task completes;
`future.result()` returns only then).  The sequential branch runs the same
interval inline on the calling thread. -/

/-- Request-lifetime events. -/
inductive Ev where
  | start (i : Nat)
  | finish (i : Nat)
deriving DecidableEq

/-- The events of one iteration: dispatch, then completion, with the (awaited)
completion preceding anything the loop does next. -/
def iterEvents (i : Nat) : List Ev := [.start i, .finish i]

/-- Event trace of the concurrent branch for `n` iterations: each submitted
future is awaited immediately, so iteration `i`'s interval closes before
iteration `i+1` is submitted. -/
def concTrace : Nat → List Ev
  | 0 => []
  | n + 1 => concTrace n ++ iterEvents n

/-- Event trace of the sequential branch for `n` iterations. -/
def seqTrace : Nat → List Ev
  | 0 => []
  | n + 1 => seqTrace n ++ iterEvents n

/-- `min(num_requests, 10)`, the `max_workers` argument of the pool
(`src/api_tester.py` line 130). -/
def poolSize (n : Nat) : Nat := min n 10

/-- Folding step computing (current in-flight count, maximum so far). -/
def stepFlight (st : Nat × Nat) (e : Ev) : Nat × Nat :=
  match e with
  | .start _ => (st.1 + 1, max st.2 (st.1 + 1))
  | .finish _ => (st.1 - 1, st.2)

/-- Largest number of requests simultaneously in flight along a trace. -/
def maxInFlight (tr : List Ev) : Nat :=
  (tr.foldl stepFlight (0, 0)).2

/-! ## Reference-semantics model of templates and expansion

`run_performance_test` builds each iteration's tester from *shallow* copies
(`self.headers.copy()`, `self.body.copy()`, `self.params.copy()`,
`src/api_tester.py` lines 133-136 and 145-148), and
`process_dynamic_content` assigns `data[key] = ...` into dicts in place
(line 41) while rebuilding lists (line 44).  To capture the aliasing this
creates between a copy and the template, dict objects live in a heap at
addresses; all other values (including lists, which are rebuilt, not mutated)
are inline. -/

mutual
/-- A heap value: a scalar, an inline (rebuilt-on-write) list, or a reference
to a dict object in the heap. -/
inductive HVal where
  | str (s : List Char)
  | int (n : Int)
  | num (q : ℚ)
  | bool (b : Bool)
  | null
  | arr (xs : HList)
  | ref (a : Nat)
deriving DecidableEq
inductive HList where
  | nil
  | cons (hd : HVal) (tl : HList)
deriving DecidableEq
end

/-- A dict object: its entries in insertion order. -/
abbrev DictObj := List (List Char × HVal)

/-- The heap: dict objects indexed by address. -/
abbrev Heap := List DictObj

/-- The dict object at address `a`. -/
def getObj (h : Heap) (a : Nat) : DictObj := h.getD a []

/-- Overwrite the dict object at address `a`. -/
def setObj (h : Heap) (a : Nat) (o : DictObj) : Heap := h.set a o

/-- `data[key] = v` on a dict object: overwrite in place, else append. -/
def setEntry (o : DictObj) (k : List Char) (v : HVal) : DictObj :=
  match o with
  | [] => [(k, v)]
  | (k', v') :: rest =>
    if k' = k then (k', v) :: rest else (k', v') :: setEntry rest k v

/-- Allocate a fresh dict object, returning the new heap and its address. -/
def allocObj (h : Heap) (o : DictObj) : Heap × Nat := (h ++ [o], h.length)

/-- `d.copy()`: a new dict object with the same entries (shallow: entry values,
including references to nested dicts, are shared). -/
def copyDict (h : Heap) (a : Nat) : Heap × Nat := allocObj h (getObj h a)

mutual
/-- Read a generator return value as a heap value (generator returns contain
no dicts). -/
def svToHVal : SVal → HVal
  | .str s => .str s
  | .int n => .int n
  | .bool b => .bool b
  | .arr xs => .arr (slToHList xs)
def slToHList : SList → HList
  | .nil => .nil
  | .cons x xs => .cons (svToHVal x) (slToHList xs)
end

/-- The dict case of `process_dynamic_content` (`src/api_tester.py` lines
39-42) on the object at address `a`: iterate over a snapshot
(`list(data.items())`) of the entries, process each value with the supplied
one-level-deeper processor `rec`, and assign `data[key] = result` back into
the object in place. -/
def processDictStep (rec : HVal → Heap → Nat → Option (HVal × Heap × Nat))
    (a : Nat) : DictObj → Heap → Nat → Option (Heap × Nat)
  | [], h, r => some (h, r)
  | (k, v) :: rest, h, r =>
    (rec v h r).bind fun p =>
      processDictStep rec a rest (setObj p.2.1 a (setEntry (getObj p.2.1 a) k p.1)) p.2.2

/-- The list case (`src/api_tester.py` lines 43-44): rebuild the list from the
processed elements, left to right. -/
def processArrStep (rec : HVal → Heap → Nat → Option (HVal × Heap × Nat)) :
    HList → Heap → Nat → Option (HList × Heap × Nat)
  | .nil, h, r => some (.nil, h, r)
  | .cons v vs, h, r =>
    (rec v h r).bind fun p =>
      (processArrStep rec vs p.2.1 p.2.2).map fun q => (.cons p.1 q.1, q.2.1, q.2.2)

/-- `process_dynamic_content` under reference semantics.  `fuel` bounds the
recursion depth (Python's own recursion limit plays the same role on cyclic
data); every claim instantiates it above the depth of the data involved. -/
def processHV (E : Entropy) : Nat → HVal → Heap → Nat → Option (HVal × Heap × Nat)
  | 0, _, _, _ => none
  | fuel + 1, v, h, r =>
    match v with
    | .ref a =>
      (processDictStep (processHV E fuel) a (getObj h a) h r).map fun p =>
        (.ref a, p.1, p.2)
    | .arr xs =>
      (processArrStep (processHV E fuel) xs h r).map fun p =>
        (.arr p.1, p.2.1, p.2.2)
    | .str s =>
      if isPre genHead s then
        let p := expandMarker E r s
        some (svToHVal p.1, h, p.2)
      else some (.str s, h, r)
    | w => some (w, h, r)

/-- `prepare_request_data` (`src/api_tester.py` lines 85-89) on a tester whose
`headers`, `body` and `params` dicts sit at the given addresses: process each
in turn (the processed dict is the same object, so the reassignment
`self.headers = ...` is the identity on the reference). -/
def prepareRequestData (E : Entropy) (fuel : Nat) (hA bA pA : Nat) (h : Heap)
    (r : Nat) : Option (Heap × Nat) :=
  (processHV E fuel (.ref hA) h r).bind fun p1 =>
    (processHV E fuel (.ref bA) p1.2.1 p1.2.2).bind fun p2 =>
      (processHV E fuel (.ref pA) p2.2.1 p2.2.2).map fun p3 => (p3.2.1, p3.2.2)

/-- The fully dereferenced JSON value of a heap value (what the expanded
request actually contains when handed to the transport). -/
def deepDictStep (rec : HVal → Option JVal) : DictObj → Option JDict
  | [] => some .nil
  | (k, v) :: rest =>
    match rec v, deepDictStep rec rest with
    | some jv, some tl => some (.cons k jv tl)
    | _, _ => none

/-- List part of `deepValue`. -/
def deepArrStep (rec : HVal → Option JVal) : HList → Option JList
  | .nil => some .nil
  | .cons v vs =>
    match rec v, deepArrStep rec vs with
    | some jv, some tl => some (.cons jv tl)
    | _, _ => none

/-- Fully dereference a heap value into a JSON value (`fuel` bounds depth). -/
def deepValue (h : Heap) : Nat → HVal → Option JVal
  | 0, _ => none
  | fuel + 1, v =>
    match v with
    | .ref a => (deepDictStep (deepValue h fuel) (getObj h a)).map .dict
    | .arr xs => (deepArrStep (deepValue h fuel) xs).map .list
    | .str s => some (.str s)
    | .int n => some (.int n)
    | .num q => some (.num q)
    | .bool b => some (.bool b)
    | .null => some .null

/-- One iteration of the `run_performance_test` loop (either branch,
`src/api_tester.py` lines 131-141 / 143-152), up to the transport call, which
touches no request data: shallow-copy the three template dicts into a fresh
tester, then `send_request` runs `prepare_request_data` on the copies.  Also
returns the fully expanded body value the iteration sends. -/
def runIteration (E : Entropy) (fuel : Nat) (hA bA pA : Nat) (h : Heap)
    (r : Nat) : Option (Heap × Nat × Option JVal) :=
  let c1 := copyDict h hA
  let c2 := copyDict c1.1 bA
  let c3 := copyDict c2.1 pA
  (prepareRequestData E fuel c1.2 c2.2 c3.2 c3.1 r).map fun p =>
    (p.1, p.2, deepValue p.1 fuel (.ref c2.2))

/-- The `num_requests` iterations of `run_performance_test` over the shared
template dicts, collecting each iteration's sent body value. -/
def runIterations (E : Entropy) (fuel : Nat) (hA bA pA : Nat) :
    Nat → Heap → Nat → Option (Heap × Nat × List (Option JVal))
  | 0, h, r => some (h, r, [])
  | n + 1, h, r =>
    (runIterations E fuel hA bA pA n h r).bind fun p =>
      (runIteration E fuel hA bA pA p.1 p.2.1).map fun q =>
        (q.1, q.2.1, p.2.2 ++ [q.2.2])

mutual
/-- A heap value with no reference below it (its sub-structure is not shared
with any dict object). -/
def refFreeHV : HVal → Bool
  | .ref _ => false
  | .arr xs => refFreeHL xs
  | _ => true
def refFreeHL : HList → Bool
  | .nil => true
  | .cons x xs => refFreeHV x && refFreeHL xs
end

/-- A dict object all of whose entry values are reference-free. -/
def refFreeObj (o : DictObj) : Bool := o.all (fun kv => refFreeHV kv.2)

/-! ## Spec-side definitions

Used only to state claims that compare the code against the specification's
own wording. -/

/-- Identifier characters (letters, digits, underscore). -/
def isIdentChar (c : Char) : Bool := c.isAlpha || c.isDigit || c = '_'

/-- Modelled from the spec (§4.2): a string is marker-shaped iff it begins
with `$generate_` or, more generally, consists of `$` followed by an
identifier and a parenthesized argument list ending the string. -/
def specMarkerShape (s : List Char) : Bool :=
  isPre genHead s ||
    (match s with
     | '$' :: rest =>
       let ident := rest.takeWhile isIdentChar
       let after := rest.drop ident.length
       !ident.isEmpty &&
         (match after with
          | '(' :: _ => endsWith [ ')' ] after
          | _ => false)
     | _ => false)

mutual
/-- No string anywhere in the value is marker-shaped (in the spec's sense). -/
def cleanJV : JVal → Bool
  | .str s => !specMarkerShape s
  | .list xs => cleanJL xs
  | .dict d => cleanJD d
  | _ => true
def cleanJL : JList → Bool
  | .nil => true
  | .cons x xs => cleanJV x && cleanJL xs
def cleanJD : JDict → Bool
  | .nil => true
  | .cons _ v tl => cleanJV v && cleanJD tl
end

/-! ## Concrete fixtures for closed statements -/

/-- The spec's `from_options` example marker. -/
def foMarker : List Char := "$from_options([\"a\",\"b\"])".data

/-- The spec's malformed marker example. -/
def badTextMarker : List Char := "$generate_text(min_words=)".data

/-- A recognized-syntax marker naming an unregistered generator. -/
def unknownMarker : List Char := "$generate_foo()".data

/-- A `generate_uuid` marker. -/
def uuidMarker : List Char := "$generate_uuid()".data

/-- A marker-free JSON value with nested structure (C8 witness). -/
def cleanSample : JVal :=
  .dict (.cons ("a".data)
    (.list (.cons (.int 1) (.cons (.str ("x$y".data)) (.cons (.bool true) .nil))))
    (.cons ("b".data)
      (.dict (.cons ("c".data) .null (.cons ("d".data) (.str ("plain".data)) .nil)))
      (.cons ("e".data) (.num (3 / 2 : ℚ)) .nil)))

/-- A transport oracle that always succeeds with status 200 after 1 second. -/
def tAll200 : Nat → Outcome := fun _ => ⟨some 200, 1⟩

/-- A transport oracle whose every call raises (caught, `None` returned). -/
def tAllFail : Nat → Outcome := fun _ => ⟨none, 2⟩

/-- A transport oracle: iteration 0 returns status 200, all later iterations
return status 500 (a completed response with a failure status). -/
def tMixed : Nat → Outcome := fun i => if i = 0 then ⟨some 200, 1⟩ else ⟨some 500, 1⟩

/-- C1 template heap: `headers` is the empty dict at address 0, `body` is
`{"outer": {"inner": "$generate_uuid()"}}` with the outer dict at address 1
and the nested sub-object at address 2, `params` is the empty dict at
address 3. -/
def heapT : Heap :=
  [[], [("outer".data, HVal.ref 2)], [("inner".data, HVal.str uuidMarker)], []]

/-- C1 amended-claim witness heap: three template dicts with only
reference-free values — `headers = {}` at address 0,
`body = {"k": "$generate_uuid()"}` at address 1, `params = {}` at
address 2. -/
def heapF : Heap :=
  [[], [("k".data, HVal.str uuidMarker)], []]

/-- Two iterations of the `run_performance_test` loop over the `heapT`
template (headers at 0, body at 1, params at 3), with depth fuel 6 and the
concrete entropy source. -/
def c1run : Option (Heap × Nat × List (Option JVal)) :=
  runIterations entropy0 6 0 1 3 2 heapT 0

/-- The template's nested sub-object (address 2) after the run. -/
def c1finalNested : Option DictObj := c1run.map (fun p => getObj p.1 2)

/-- The template body's fully dereferenced value after the run. -/
def c1finalBody : Option (Option JVal) := c1run.map (fun p => deepValue p.1 6 (.ref 1))

/-- The body values the two iterations actually sent. -/
def c1sentBodies : Option (List (Option JVal)) := c1run.map (fun p => p.2.2)

/-- The number of entropy draws the whole run consumed. -/
def c1draws : Option Nat := c1run.map (fun p => p.2.1)

/-- The body value after its nested marker was expanded (uuid of draw 0). -/
def c1expanded : JVal :=
  .dict (.cons ("outer".data)
    (.dict (.cons ("inner".data) (.str ("u0".data)) .nil)) .nil)

/-- The template body value before the run. -/
def c1orig : JVal :=
  .dict (.cons ("outer".data)
    (.dict (.cons ("inner".data) (.str uuidMarker) .nil)) .nil)

/-- One iteration over the reference-free `heapF` template (headers at 0,
body at 1, params at 2), with depth fuel 3: the heap gains the three copies,
the copied body's marker is expanded in place on the copy, and the template
objects are untouched. -/
def c1wRes : Heap × Nat × List (Option JVal) :=
  ([[], [("k".data, HVal.str uuidMarker)], [], [],
    [("k".data, HVal.str ("u0".data))], []],
   1,
   [some (.dict (.cons ("k".data) (.str ("u0".data)) .nil))])

deriving instance DecidableEq for Except

/-! # Helper lemmas -/

theorem splitOnChar_of_not_contains {sep : Char} :
    ∀ {s : List Char}, s.contains sep = false → splitOnChar sep s = [s]
  | [], _ => rfl
  | c :: rest, h => by
    rw [List.contains_cons, Bool.or_eq_false_iff] at h
    have hc : ¬ sep = c := by simpa [beq_iff_eq] using h.1
    simp [splitOnChar, splitOnChar_of_not_contains h.2, Ne.symm hc]

theorem splitFirst_append {v : List Char} :
    ∀ {k : List Char}, k.contains '=' = false →
      splitFirst '=' (k ++ '=' :: v) = (k, some v)
  | [], _ => by simp [splitFirst]
  | c :: ks, h => by
    rw [List.contains_cons, Bool.or_eq_false_iff] at h
    have hc : ¬ ('=' : Char) = c := by simpa [beq_iff_eq] using h.1
    simp [splitFirst, Ne.symm hc, splitFirst_append h.2]

theorem toLower_of_isDigit {c : Char} (h : c.isDigit = true) : c.toLower = c := by
  simp [Char.isDigit] at h
  have h2 : c.toNat ≤ 57 := h.2
  simp [Char.toLower]
  intro ha hb
  omega

theorem pyLower_of_digits : ∀ {w : List Char}, w.all Char.isDigit = true → pyLower w = w
  | [], _ => rfl
  | c :: cs, h => by
    rw [List.all_cons, Bool.and_eq_true] at h
    have h1 := toLower_of_isDigit h.1
    have h2 := pyLower_of_digits h.2
    simp only [pyLower, List.map_cons] at h2 ⊢
    rw [h1, h2]

theorem trueChars_eq : trueChars = [ 't', 'r', 'u', 'e' ] := rfl

theorem falseChars_eq : falseChars = [ 'f', 'a', 'l', 's', 'e' ] := rfl

theorem parseVal_true {w : List Char} (h : pyLower w = trueChars) :
    parseVal w = .bool true := by
  simp [parseVal, h]

theorem parseVal_false {w : List Char} (h : pyLower w = falseChars) :
    parseVal w = .bool false := by
  simp [parseVal, h, trueChars_eq, falseChars_eq]

theorem parseVal_digits {w : List Char} (h : pyIsDigit w = true) :
    parseVal w = .int (digitsToNat w) := by
  have hall : w.all Char.isDigit = true := by
    have hh := h
    simp [pyIsDigit] at hh
    rw [List.all_eq_true]
    intro x hx
    exact hh.2 x hx
  have hl : pyLower w = w := pyLower_of_digits hall
  have h1 : ¬ pyLower w = trueChars := by
    rw [hl]
    rintro rfl
    exact absurd h (by decide)
  have h2 : ¬ pyLower w = falseChars := by
    rw [hl]
    rintro rfl
    exact absurd h (by decide)
  simp [parseVal, h1, h2, h]

theorem parseVal_quoted {w : List Char} (h1 : isPre [ '"' ] w = true)
    (h2 : endsWith [ '"' ] w = true) : parseVal w = .str ((w.drop 1).dropLast) := by
  cases w with
  | nil => exact absurd h1 (by decide)
  | cons c tl =>
    have hc : c = '"' := by
      simp [isPre, Bool.and_eq_true] at h1
      exact h1.symm
    subst hc
    simp [parseVal, pyLower, pyIsDigit, trueChars_eq, falseChars_eq, h2, isPre]

theorem parseVal_bracket {w : List Char} (h : isPre [ '[' ] w = true) :
    parseVal w = .str w := by
  cases w with
  | nil => exact absurd h (by decide)
  | cons c tl =>
    have hc : c = '[' := by
      simp [isPre, Bool.and_eq_true] at h
      exact h.symm
    subst hc
    simp [parseVal, pyLower, pyIsDigit, isPre, trueChars_eq, falseChars_eq]

theorem containsAppend {a : Char} : ∀ (l1 l2 : List Char),
    (l1 ++ l2).contains a = (l1.contains a || l2.contains a)
  | [], _ => by simp
  | c :: t, l2 => by
    simp [List.contains_cons, containsAppend t l2, Bool.or_assoc]

theorem parseParams_single {k v : List Char} (hk1 : k.contains ',' = false)
    (hk2 : k.contains '=' = false) (hv1 : v.contains ',' = false) :
    parseParams (k ++ '=' :: v) = [(pyStrip k, parseVal (pyStrip v))] := by
  have hcomma : (k ++ '=' :: v).contains ',' = false := by
    simp only [containsAppend, List.contains_cons, Bool.or_eq_false_iff]
    refine ⟨hk1, ?_, hv1⟩
    decide
  have heqc : (k ++ '=' :: v).contains '=' = true := by
    simp [containsAppend, List.contains_cons]
  unfold parseParams
  rw [if_neg (by simp)]
  rw [splitOnChar_of_not_contains hcomma]
  simp only [List.foldl_cons, List.foldl_nil]
  rw [if_pos heqc, splitFirst_append hk2]
  rfl

/-! # Claim C4 -/

/-- C4 is false as stated: a value wrapped in `[...]` is *not* coerced to a
list.  `parseParams "xs=[1]"` keeps the raw string `"[1]"` (brackets
included), which is not the list `[1]`. -/
theorem claimC4_counterexample :
    parseParams ("xs=[1]".data) = [("xs".data, JVal.str ("[1]".data))] ∧
    JVal.str ("[1]".data) ≠ JVal.list (.cons (.int 1) .nil) :=
  ⟨by decide, by decide⟩

/-- C4 (amended): for every `key=value` pair in a marker's argument list the
parser trims whitespace around key and value and coerces the value: to a
boolean when it equals `"true"`/`"false"` case-insensitively, to an integer
when it is all digits, to a dequoted string when wrapped in double quotes —
but there is no list coercion: a value wrapped in `[...]` is kept as the raw
string (and the surrounding naive comma split would in any case cut a
bracketed list containing a comma into separate fragments). -/
theorem claimC4_coercion (k v wt wf wd wq wb : List Char)
    (hk1 : k.contains ',' = false) (hk2 : k.contains '=' = false)
    (hv1 : v.contains ',' = false) :
    parseParams (k ++ '=' :: v) = [(pyStrip k, parseVal (pyStrip v))] ∧
    (pyLower wt = trueChars → parseVal wt = .bool true) ∧
    (pyLower wf = falseChars → parseVal wf = .bool false) ∧
    (pyIsDigit wd = true → parseVal wd = .int (digitsToNat wd)) ∧
    (isPre [ '"' ] wq = true → endsWith [ '"' ] wq = true →
      parseVal wq = .str ((wq.drop 1).dropLast)) ∧
    (isPre [ '[' ] wb = true → parseVal wb = .str wb) :=
  ⟨parseParams_single hk1 hk2 hv1, parseVal_true, parseVal_false, parseVal_digits,
    parseVal_quoted, parseVal_bracket⟩

/-- Closed instance of the amended C4 at concrete inputs. -/
theorem claimC4_coercion_witness :
    ((" flag ".data).contains ',' = false ∧ (" flag ".data).contains '=' = false ∧
      (" TRUE ".data).contains ',' = false) ∧
    (parseParams ((" flag ".data) ++ '=' :: (" TRUE ".data))
        = [(pyStrip (" flag ".data), parseVal (pyStrip (" TRUE ".data)))] ∧
      (pyLower ("True".data) = trueChars → parseVal ("True".data) = .bool true) ∧
      (pyLower ("FALSE".data) = falseChars → parseVal ("FALSE".data) = .bool false) ∧
      (pyIsDigit ("007".data) = true →
        parseVal ("007".data) = .int (digitsToNat ("007".data))) ∧
      (isPre [ '"' ] ("\"hi\"".data) = true → endsWith [ '"' ] ("\"hi\"".data) = true →
        parseVal ("\"hi\"".data) = .str ((("\"hi\"".data).drop 1).dropLast)) ∧
      (isPre [ '[' ] ("[1]".data) = true → parseVal ("[1]".data) = .str ("[1]".data))) :=
  ⟨⟨by decide, by decide, by decide⟩,
    claimC4_coercion (" flag ".data) (" TRUE ".data) ("True".data) ("FALSE".data)
      ("007".data) ("\"hi\"".data) ("[1]".data) (by decide) (by decide) (by decide)⟩

/-! # Claim C2 -/

/-- C2 is false as stated: `process_dynamic_content` only treats strings
beginning with `"$generate_"` as markers, so `"$from_options([\"a\",\"b\"])"`
is returned unexpanded: the result is the original marker string, not `"a"`
or `"b"`. -/
theorem claimC2_counterexample :
    processDC entropy0 (.str foMarker) 0 = (.str foMarker, 0) ∧
    foMarker ≠ ("a".data) ∧ foMarker ≠ ("b".data) :=
  ⟨by decide, by decide, by decide⟩

/-- C2 (amended): a string is recognized as a marker only when it begins with
`"$generate_"`; any other string — in particular the spec's
`$from_options(...)` example — passes through expansion unchanged, and no
generator is invoked for it. -/
theorem claimC2_recognition (E : Entropy) (r : Nat) (s : List Char)
    (h : isPre genHead s = false) :
    processDC E (.str s) r = (.str s, r) ∧
    processDC E (.str foMarker) r = (.str foMarker, r) := by
  constructor
  · simp [processDC, h]
  · simp [processDC, show isPre genHead foMarker = false from by decide]

/-- Closed instance of the amended C2. -/
theorem claimC2_recognition_witness :
    isPre genHead ("hello".data) = false ∧
    (processDC entropy0 (.str ("hello".data)) 0 = (.str ("hello".data), 0) ∧
      processDC entropy0 (.str foMarker) 0 = (.str foMarker, 0)) :=
  ⟨by decide, claimC2_recognition entropy0 0 ("hello".data) (by decide)⟩

/-! # Claim C6 -/

theorem processDict_keys (E : Entropy) : (d : JDict) → (r : Nat) →
    JDict.keys (processDict E d r).1 = JDict.keys d
  | .nil, _ => rfl
  | .cons k v tl, r => by
    simp [processDict, JDict.keys, processDict_keys E tl (processDC E v r).2]

/-- C6: expansion never lets an exception out.  The malformed marker
`"$generate_text(min_words=)"` expands to an `"Error generating content: ..."`
string (the empty value parses to the empty string, and `randint` then raises,
caught by the expander) while its sibling entry is processed normally; a
recognized-syntax marker naming an unregistered generator expands to the
`"Unknown generator: ..."` string; and for every dict the processed result has
exactly the original keys — one bad marker never aborts or deforms the
surrounding structure (in the embedding, expansion is a total function). -/
theorem claimC6_soft_errors :
    (∃ m, processDC entropy0
        (.dict (.cons ("a".data) (.str badTextMarker)
          (.cons ("b".data) (.int 7) .nil))) 0
      = (.dict (.cons ("a".data) (.str (errHead ++ m))
          (.cons ("b".data) (.int 7) .nil)), 0)) ∧
    processDC entropy0 (.str unknownMarker) 0
      = (.str (unkHead ++ ("generate_foo".data)), 0) ∧
    ∀ (E : Entropy) (d : JDict) (r : Nat),
      JDict.keys (processDict E d r).1 = JDict.keys d :=
  ⟨⟨msgTypeErr, by decide⟩, by decide, fun E d r => processDict_keys E d r⟩

/-! # Claim C8 -/

theorem specMarkerShape_false_head {s : List Char} (h : specMarkerShape s = false) :
    isPre genHead s = false := by
  unfold specMarkerShape at h
  exact (Bool.or_eq_false_iff.mp h).1

mutual
theorem processDC_clean (E : Entropy) : (v : JVal) → (r : Nat) → cleanJV v = true →
    processDC E v r = (v, r)
  | .str s, r, h => by
    simp only [cleanJV, Bool.not_eq_true'] at h
    simp [processDC, specMarkerShape_false_head h]
  | .int _, _, _ => rfl
  | .num _, _, _ => rfl
  | .bool _, _, _ => rfl
  | .null, _, _ => rfl
  | .list xs, r, h => by
    simp only [cleanJV] at h
    simp [processDC, processList_clean E xs r h]
  | .dict d, r, h => by
    simp only [cleanJV] at h
    simp [processDC, processDict_clean E d r h]
theorem processList_clean (E : Entropy) : (l : JList) → (r : Nat) → cleanJL l = true →
    processList E l r = (l, r)
  | .nil, _, _ => rfl
  | .cons x xs, r, h => by
    rw [cleanJL, Bool.and_eq_true] at h
    simp [processList, processDC_clean E x r h.1, processList_clean E xs r h.2]
theorem processDict_clean (E : Entropy) : (d : JDict) → (r : Nat) → cleanJD d = true →
    processDict E d r = (d, r)
  | .nil, _, _ => rfl
  | .cons k v tl, r, h => by
    rw [cleanJD, Bool.and_eq_true] at h
    simp [processDict, processDC_clean E v r h.1, processDict_clean E tl r h.2]
end

/-- C8: for every JSON-like value containing no marker-shaped string (in the
spec's sense: beginning with `$generate_`, or `$` + identifier + parenthesized
argument list ending the string), expansion is the identity — mappings keep
their keys, sequences keep their length and order, and every scalar passes
through unchanged (the result is value-equal to the input). -/
theorem claimC8_identity (E : Entropy) (v : JVal) (r : Nat) (h : cleanJV v = true) :
    processDC E v r = (v, r) :=
  processDC_clean E v r h

/-- Closed instance of C8 on a nested marker-free value. -/
theorem claimC8_identity_witness :
    cleanJV cleanSample = true ∧ processDC entropy0 cleanSample 0 = (cleanSample, 0) :=
  ⟨by decide, claimC8_identity entropy0 cleanSample 0 (by decide)⟩

/-! # Harness helper lemmas -/

theorem collectConc_eq_seq (t : Nat → Outcome) : ∀ n, collectConc t n = collectSeq t n
  | 0 => rfl
  | n + 1 => by
    simp [collectConc, collectSeq, submitTask, awaitResult, collectConc_eq_seq t n]

theorem collectSeq_allfail {t : Nat → Outcome} :
    ∀ {n}, (∀ i, i < n → truthy (t i) = false) → collectSeq t n = ([], [])
  | 0, _ => rfl
  | n + 1, h => by
    have hn := h n (Nat.lt_succ_self n)
    simp [collectSeq, collectSeq_allfail (fun i hi => h i (Nat.lt_succ_of_lt hi)), hn]

theorem statusOf_lt_of_truthy {o : Outcome} (h : truthy o = true) : statusOf o < 400 := by
  unfold truthy at h
  unfold statusOf
  cases hr : o.resp with
  | none => rw [hr] at h; cases h
  | some c =>
    rw [hr] at h
    simpa using of_decide_eq_true h

theorem collectSeq_shape (t : Nat → Outcome) : ∀ n,
    (collectSeq t n).2.length = (collectSeq t n).1.length ∧
    (collectSeq t n).1.length = ((List.range n).filter (fun i => truthy (t i))).length ∧
    ∀ c ∈ (collectSeq t n).2, c < 400
  | 0 => ⟨rfl, rfl, by simp [collectSeq]⟩
  | n + 1 => by
    obtain ⟨ih1, ih2, ih3⟩ := collectSeq_shape t n
    by_cases h : truthy (t n) = true
    · refine ⟨?_, ?_, ?_⟩
      · simp [collectSeq, h, ih1]
      · simp [collectSeq, h, ih2, List.range_succ, List.filter_append]
      · intro c hc
        simp only [collectSeq, h, if_true] at hc
        rcases List.mem_append.mp hc with hm | hm
        · exact ih3 c hm
        · rw [List.mem_singleton.mp hm]
          exact statusOf_lt_of_truthy h
    · rw [Bool.not_eq_true] at h
      refine ⟨?_, ?_, ?_⟩
      · simp [collectSeq, h, ih1]
      · simp [collectSeq, h, ih2, List.range_succ, List.filter_append]
      · intro c hc
        simp only [collectSeq, h] at hc
        exact ih3 c (by simpa using hc)

theorem listMin_le_mem : ∀ {l : List ℚ} {x : ℚ}, x ∈ l → listMin l ≤ x
  | [], x, hx => absurd hx (List.not_mem_nil x)
  | [y], x, hx => by
    rw [List.mem_singleton.mp hx]
    simp [listMin]
  | y :: z :: tl, x, hx => by
    rcases List.mem_cons.mp hx with h | h
    · rw [h]
      exact min_le_left _ _
    · calc listMin (y :: z :: tl) ≤ listMin (z :: tl) := min_le_right _ _
        _ ≤ x := listMin_le_mem h

theorem le_listMax_mem : ∀ {l : List ℚ} {x : ℚ}, x ∈ l → x ≤ listMax l
  | [], x, hx => absurd hx (List.not_mem_nil x)
  | [y], x, hx => by
    rw [List.mem_singleton.mp hx]
    simp [listMax]
  | y :: z :: tl, x, hx => by
    rcases List.mem_cons.mp hx with h | h
    · rw [h]
      exact le_max_left _ _
    · calc x ≤ listMax (z :: tl) := le_listMax_mem h
        _ ≤ listMax (y :: z :: tl) := le_max_right _ _

theorem mul_len_le_qsum : ∀ {l : List ℚ} {a : ℚ}, (∀ x ∈ l, a ≤ x) → a * l.length ≤ qsum l
  | [], a, _ => by simp [qsum]
  | x :: xs, a, h => by
    have hx := h x (List.mem_cons_self x xs)
    have ih := mul_len_le_qsum (fun y hy => h y (List.mem_cons_of_mem x hy))
    have hlen : ((x :: xs).length : ℚ) = (xs.length : ℚ) + 1 := by
      push_cast [List.length_cons]
      ring
    calc a * ((x :: xs).length : ℚ) = a * (xs.length : ℚ) + a := by rw [hlen]; ring
      _ ≤ qsum xs + x := add_le_add ih hx
      _ = qsum (x :: xs) := by rw [qsum]; ring

theorem qsum_le_mul_len : ∀ {l : List ℚ} {a : ℚ}, (∀ x ∈ l, x ≤ a) → qsum l ≤ a * l.length
  | [], a, _ => by simp [qsum]
  | x :: xs, a, h => by
    have hx := h x (List.mem_cons_self x xs)
    have ih := qsum_le_mul_len (fun y hy => h y (List.mem_cons_of_mem x hy))
    have hlen : ((x :: xs).length : ℚ) = (xs.length : ℚ) + 1 := by
      push_cast [List.length_cons]
      ring
    calc qsum (x :: xs) = x + qsum xs := rfl
      _ ≤ a + a * (xs.length : ℚ) := add_le_add hx ih
      _ = a * ((x :: xs).length : ℚ) := by rw [hlen]; ring

theorem listMin_le_avg {l : List ℚ} (h : l ≠ []) :
    listMin l ≤ qsum l / (l.length : ℚ) := by
  have hlen : (0 : ℚ) < (l.length : ℚ) := by
    exact_mod_cast List.length_pos.mpr h
  rw [le_div_iff₀ hlen]
  exact mul_len_le_qsum (fun x hx => listMin_le_mem hx)

theorem avg_le_listMax {l : List ℚ} (h : l ≠ []) :
    qsum l / (l.length : ℚ) ≤ listMax l := by
  have hlen : (0 : ℚ) < (l.length : ℚ) := by
    exact_mod_cast List.length_pos.mpr h
  rw [div_le_iff₀ hlen]
  exact qsum_le_mul_len (fun x hx => le_listMax_mem hx)

theorem statusHist_snd_sum (codes : List Nat) :
    ((statusHist codes).map Prod.snd).sum = codes.length := by
  simp only [statusHist, List.map_map]
  have hc : (Prod.snd ∘ fun c => (c, codes.count c)) = fun c => codes.count c := rfl
  rw [hc]
  exact List.sum_map_count_dedup_eq_length codes

theorem statusHist_mem_fst {codes : List Nat} {p : Nat × Nat}
    (h : p ∈ statusHist codes) : p.1 ∈ codes := by
  simp only [statusHist, List.mem_map] at h
  obtain ⟨c, hc, hp⟩ := h
  rw [← hp]
  exact List.mem_dedup.mp hc

theorem runPerf_stats_inv {url method u2 m2 : List Char} {t : Nat → Outcome}
    {n : Nat} {conc : Bool} {sent succ : Nat} {mn mx av md : ℚ}
    {hist : List (Nat × Nat)}
    (h : runPerformanceTest url method t n conc
      = .ok (.stats u2 m2 sent succ mn mx av md hist)) :
    sent = n ∧ succ = (collectSeq t n).1.length ∧
    hist = statusHist (collectSeq t n).2 ∧
    mn = listMin (collectSeq t n).1 ∧ mx = listMax (collectSeq t n).1 ∧
    av = qsum (collectSeq t n).1 / ((collectSeq t n).1.length : ℚ) ∧
    (collectSeq t n).1 ≠ [] := by
  unfold runPerformanceTest at h
  by_cases hg : (conc && n == 0) = true
  · rw [if_pos hg] at h
    exact absurd h (by simp)
  · rw [if_neg hg] at h
    simp only [collectConc_eq_seq, ite_self] at h
    by_cases he : (collectSeq t n).1.isEmpty = true
    · rw [if_pos he] at h
      exact absurd h (by simp)
    · rw [if_neg he] at h
      rw [Except.ok.injEq, PerfResult.stats.injEq] at h
      obtain ⟨-, -, h3, h4, h5, h6, h7, h8, h9⟩ := h
      refine ⟨h3.symm, h4.symm, h9.symm, h5.symm, h6.symm, h7.symm, ?_⟩
      rw [Bool.not_eq_true, List.isEmpty_eq_false_iff_exists_mem] at he
      obtain ⟨x, hx⟩ := he
      exact List.ne_nil_of_mem hx

theorem runPerf_tAll200_eval (url method : List Char) :
    runPerformanceTest url method tAll200 5 false
      = .ok (.stats url method 5 5 1 1 1 1 [(200, 5)]) := by
  norm_num [runPerformanceTest, collectSeq, tAll200, truthy, statusOf, qsum, listMin,
    listMax, medianQ, sortQ, insertQ, statusHist, List.dedup, List.count]

theorem runPerf_tMixed_eval (url method : List Char) :
    runPerformanceTest url method tMixed 2 false
      = .ok (.stats url method 2 1 1 1 1 1 [(200, 1)]) := by
  norm_num [runPerformanceTest, collectSeq, tMixed, truthy, statusOf, qsum, listMin,
    listMax, medianQ, sortQ, insertQ, statusHist, List.dedup, List.count]

/-! # Claim C7 -/

/-- C7: whenever `run_performance_test` returns a statistics record,
`successful_requests ≤ requests_sent`, the histogram counts sum to
`successful_requests`, and `min_time ≤ avg_time ≤ max_time`; and the concrete
run of 5 sequential iterations against a transport that always succeeds with
status 200 (1s each) yields `requests_sent = 5`, `successful_requests = 5` and
histogram `{200: 5}`. -/
theorem claimC7_stats (url method u2 m2 : List Char) (t : Nat → Outcome)
    (n : Nat) (conc : Bool) (sent succ : Nat) (mn mx av md : ℚ)
    (hist : List (Nat × Nat))
    (h : runPerformanceTest url method t n conc
      = .ok (.stats u2 m2 sent succ mn mx av md hist)) :
    succ ≤ sent ∧ (hist.map Prod.snd).sum = succ ∧ mn ≤ av ∧ av ≤ mx ∧
    runPerformanceTest url method tAll200 5 false
      = .ok (.stats url method 5 5 1 1 1 1 [(200, 5)]) := by
  obtain ⟨hsent, hsucc, hhist, hmn, hmx, hav, hne⟩ := runPerf_stats_inv h
  obtain ⟨s1, s2, -⟩ := collectSeq_shape t n
  refine ⟨?_, ?_, ?_, ?_, runPerf_tAll200_eval url method⟩
  · rw [hsent, hsucc, s2]
    calc ((List.range n).filter (fun i => truthy (t i))).length
        ≤ (List.range n).length := List.length_filter_le _ _
      _ = n := List.length_range n
  · rw [hhist, hsucc, statusHist_snd_sum, s1]
  · rw [hmn, hav]
    exact listMin_le_avg hne
  · rw [hav, hmx]
    exact avg_le_listMax hne

/-- Closed instance of C7 at the concrete all-200 run. -/
theorem claimC7_stats_witness :
    runPerformanceTest ("u".data) ("GET".data) tAll200 5 false
      = .ok (.stats ("u".data) ("GET".data) 5 5 1 1 1 1 [(200, 5)]) ∧
    (5 ≤ 5 ∧ (([(200, 5)] : List (Nat × Nat)).map Prod.snd).sum = 5 ∧
      (1 : ℚ) ≤ 1 ∧ (1 : ℚ) ≤ 1 ∧
      runPerformanceTest ("u".data) ("GET".data) tAll200 5 false
        = .ok (.stats ("u".data) ("GET".data) 5 5 1 1 1 1 [(200, 5)])) :=
  ⟨runPerf_tAll200_eval ("u".data) ("GET".data),
    claimC7_stats ("u".data) ("GET".data) ("u".data) ("GET".data) tAll200 5 false
      5 5 1 1 1 1 [(200, 5)] (runPerf_tAll200_eval ("u".data) ("GET".data))⟩

/-! # Claim C10 -/

/-- C10: an iteration whose transport completes with a status code ≥ 400 is
counted as unsuccessful — the guard `if response:` is `requests.Response`
truthiness, which holds exactly for status codes below 400 — so
`successful_requests` counts exactly the truthy iterations and the status-code
histogram can only ever contain codes below 400. -/
theorem claimC10_truthiness (url method u2 m2 : List Char) (t : Nat → Outcome)
    (n : Nat) (conc : Bool) (sent succ : Nat) (mn mx av md : ℚ)
    (hist : List (Nat × Nat))
    (h : runPerformanceTest url method t n conc
      = .ok (.stats u2 m2 sent succ mn mx av md hist)) :
    (hist.all fun p => decide (p.1 < 400)) = true ∧
    succ = ((List.range n).filter (fun i => truthy (t i))).length := by
  obtain ⟨-, hsucc, hhist, -, -, -, -⟩ := runPerf_stats_inv h
  obtain ⟨-, s2, s3⟩ := collectSeq_shape t n
  constructor
  · rw [List.all_eq_true]
    intro p hp
    rw [hhist] at hp
    exact decide_eq_true (s3 p.1 (statusHist_mem_fst hp))
  · rw [hsucc, s2]

/-- Closed instance of C10: with statuses 200 then 500, only the 200 response
is counted and the histogram is `{200: 1}`. -/
theorem claimC10_truthiness_witness :
    runPerformanceTest ("u".data) ("GET".data) tMixed 2 false
      = .ok (.stats ("u".data) ("GET".data) 2 1 1 1 1 1 [(200, 1)]) ∧
    ((([(200, 1)] : List (Nat × Nat)).all fun p => decide (p.1 < 400)) = true ∧
      1 = ((List.range 2).filter (fun i => truthy (tMixed i))).length) :=
  ⟨runPerf_tMixed_eval ("u".data) ("GET".data),
    claimC10_truthiness ("u".data) ("GET".data) ("u".data) ("GET".data) tMixed 2 false
      2 1 1 1 1 1 [(200, 1)] (runPerf_tMixed_eval ("u".data) ("GET".data))⟩

/-! # Claim C5 -/

/-- C5 fails as stated at `count = 0` in concurrent mode: the pool is created
with `max_workers = min(0, 10) = 0` and the `ThreadPoolExecutor` constructor
raises `ValueError` out of `run_performance_test` — zero iterations succeeded
(vacuously), yet the call raises instead of returning the all-failed error
record. -/
theorem claimC5_counterexample :
    runPerformanceTest ("u".data) ("GET".data) tAllFail 0 true = .error .valueError ∧
    runPerformanceTest ("u".data) ("GET".data) tAllFail 0 true
      ≠ .ok (.err allFailedMsg) :=
  ⟨by decide, by decide⟩

/-- C5 (amended): if zero iterations succeed, `run_performance_test` returns
the explicit `{"error": "All requests failed"}` record and does not raise —
for every count in sequential mode, and for every count ≥ 1 in concurrent
mode (at count 0 the concurrent branch raises `ValueError` from
`ThreadPoolExecutor(max_workers=0)`).  In particular no statistic is ever
computed over the empty duration list. -/
theorem claimC5_allfailed (url method : List Char) (t : Nat → Outcome) (n : Nat)
    (conc : Bool)
    (hfail : ((List.range n).all fun i => !truthy (t i)) = true) :
    runPerformanceTest url method t n false = .ok (.err allFailedMsg) ∧
    (1 ≤ n → runPerformanceTest url method t n conc = .ok (.err allFailedMsg)) := by
  have hf : ∀ i, i < n → truthy (t i) = false := by
    rw [List.all_eq_true] at hfail
    intro i hi
    have := hfail i (List.mem_range.mpr hi)
    simpa using this
  have hempty := collectSeq_allfail hf
  constructor
  · unfold runPerformanceTest
    simp [hempty]
  · intro hn
    have h0 : (n == 0) = false := by
      cases n with
      | zero => exact absurd hn (by simp)
      | succ m => rfl
    unfold runPerformanceTest
    simp [h0, collectConc_eq_seq, hempty]

/-- Closed instance of the amended C5: an always-failing transport, 3
iterations, both modes. -/
theorem claimC5_allfailed_witness :
    ((List.range 3).all fun i => !truthy (tAllFail i)) = true ∧
    (runPerformanceTest ("u".data) ("GET".data) tAllFail 3 false
        = .ok (.err allFailedMsg) ∧
      (1 ≤ 3 → runPerformanceTest ("u".data) ("GET".data) tAllFail 3 true
        = .ok (.err allFailedMsg))) :=
  ⟨by decide,
    claimC5_allfailed ("u".data) ("GET".data) tAllFail 3 true (by decide)⟩

/-! # Claim C9 -/

theorem concTrace_eq_seqTrace : ∀ n, concTrace n = seqTrace n
  | 0 => rfl
  | n + 1 => by rw [concTrace, seqTrace, concTrace_eq_seqTrace n]

/-- C9 fails as stated at `count = 0`: sequentially the call returns the
all-failed error record, while concurrently `ThreadPoolExecutor(max_workers=0)`
raises `ValueError`, so the two modes are not equivalent there. -/
theorem claimC9_counterexample :
    runPerformanceTest ("u".data) ("GET".data) tAllFail 0 true
      ≠ runPerformanceTest ("u".data) ("GET".data) tAllFail 0 false :=
  by decide

/-- C9 (amended): for every count ≥ 1 the concurrent branch awaits each
future immediately after submitting it, so it issues the requests one at a
time in the same order as the sequential branch (identical event traces) and
returns the same aggregate result for the same per-iteration transport
outcomes. -/
theorem claimC9_equivalence (url method : List Char) (t : Nat → Outcome) (n : Nat)
    (hn : 1 ≤ n) :
    runPerformanceTest url method t n true = runPerformanceTest url method t n false ∧
    concTrace n = seqTrace n := by
  have h0 : (n == 0) = false := by
    cases n with
    | zero => exact absurd hn (by simp)
    | succ m => rfl
  constructor
  · unfold runPerformanceTest
    simp [h0, collectConc_eq_seq]
  · exact concTrace_eq_seqTrace n

/-- Closed instance of the amended C9 at count 2 with a mixed transport. -/
theorem claimC9_equivalence_witness :
    1 ≤ 2 ∧
    (runPerformanceTest ("u".data) ("GET".data) tMixed 2 true
        = runPerformanceTest ("u".data) ("GET".data) tMixed 2 false ∧
      concTrace 2 = seqTrace 2) :=
  ⟨by decide, claimC9_equivalence ("u".data) ("GET".data) tMixed 2 (by decide)⟩

/-! # Claim C3 -/

theorem concTrace_foldl : ∀ (n m : Nat),
    (concTrace n).foldl stepFlight (0, m) = (0, if n = 0 then m else max m 1)
  | 0, m => rfl
  | n + 1, m => by
    rw [concTrace, List.foldl_append, concTrace_foldl n m]
    cases n with
    | zero => simp [iterEvents, stepFlight]
    | succ k => simp [iterEvents, stepFlight, max_assoc]

theorem finish_mem_concTrace : ∀ {n i : Nat}, i < n → Ev.finish i ∈ concTrace n
  | n + 1, i, h => by
    rw [concTrace]
    rcases Nat.lt_succ_iff_lt_or_eq.mp h with h | h
    · exact List.mem_append_left _ (finish_mem_concTrace h)
    · rw [h]
      exact List.mem_append_right _ (by simp [iterEvents])

/-- C3 fails as stated: with count 2 (and a pool that would admit 2 workers)
the concurrent branch still never has more than one request in flight, because
each future is awaited immediately after submission — there is no parallel
fan-out. -/
theorem claimC3_counterexample :
    maxInFlight (concTrace 2) = 1 ∧ ¬ 2 ≤ maxInFlight (concTrace 2) ∧
    concTrace 2 = [.start 0, .finish 0, .start 1, .finish 1] :=
  ⟨by decide, by decide, by decide⟩

/-- C3 (amended): for count ≥ 1 the concurrent branch creates a worker pool
with `max_workers = min(count, 10)`, but awaits each future immediately after
submission, so at most one request is ever in flight (iterations run
serially, not in parallel); every iteration's completion event is in the
trace before aggregation begins. -/
theorem claimC3_serialized (n : Nat) (hn : 1 ≤ n) :
    poolSize n = min n 10 ∧ maxInFlight (concTrace n) ≤ 1 ∧
    ((List.range n).all fun i => decide (Ev.finish i ∈ concTrace n)) = true := by
  refine ⟨rfl, ?_, ?_⟩
  · unfold maxInFlight
    rw [concTrace_foldl n 0]
    cases n with
    | zero => simp
    | succ k => simp
  · rw [List.all_eq_true]
    intro i hi
    exact decide_eq_true (finish_mem_concTrace (List.mem_range.mp hi))

/-- Closed instance of the amended C3 at count 12 (exercising the cap of 10). -/
theorem claimC3_serialized_witness :
    1 ≤ 12 ∧
    (poolSize 12 = min 12 10 ∧ maxInFlight (concTrace 12) ≤ 1 ∧
      ((List.range 12).all fun i => decide (Ev.finish i ∈ concTrace 12)) = true) :=
  ⟨by decide, claimC3_serialized 12 (by decide)⟩

/-! # Claim C1 -/

/-- C1 fails as stated: running two iterations over a template whose body
contains a nested sub-object `{"inner": "$generate_uuid()"}` (a) mutates the
shared nested dict object in place — after the run the template body's value
is the first iteration's expansion, not value-equal to what it was before —
and (b) makes the second iteration reuse the first iteration's expansion:
both iterations send the identical body, and the whole run consumes a single
entropy draw. -/
theorem claimC1_counterexample :
    c1finalNested = some [("inner".data, HVal.str ("u0".data))] ∧
    getObj heapT 2 = [("inner".data, HVal.str uuidMarker)] ∧
    ("u0".data : List Char) ≠ uuidMarker ∧
    c1finalBody = some (some c1expanded) ∧
    deepValue heapT 6 (.ref 1) = some c1orig ∧
    c1expanded ≠ c1orig ∧
    c1sentBodies = some [some c1expanded, some c1expanded] ∧
    c1draws = some 1 :=
  ⟨by decide, by decide, by decide, by decide, by decide, by decide, by decide, by decide⟩


theorem getObj_setObj_ne {h : Heap} {a x : Nat} {o : DictObj} (hne : x ≠ a) :
    getObj (setObj h a o) x = getObj h x := by
  simp [getObj, setObj, List.getD, List.getElem?_set_ne (Ne.symm hne)]

theorem getObj_append_lt {h : Heap} {o : DictObj} {x : Nat} (hx : x < h.length) :
    getObj (h ++ [o]) x = getObj h x := by
  simp [getObj, List.getD, List.getElem?_append_left hx]

theorem getObj_append_self {h : Heap} {o : DictObj} :
    getObj (h ++ [o]) h.length = o := by
  simp [getObj, List.getD, List.getElem?_concat_length]

theorem setObj_length {h : Heap} {a : Nat} {o : DictObj} :
    (setObj h a o).length = h.length := by
  simp [setObj]

theorem processArrStep_heap
    {rec : HVal → Heap → Nat → Option (HVal × Heap × Nat)}
    (hrec : ∀ {v h r out}, refFreeHV v = true → rec v h r = some out → out.2.1 = h) :
    ∀ {xs : HList} {h : Heap} {r : Nat} {out},
      refFreeHL xs = true → processArrStep rec xs h r = some out → out.2.1 = h
  | .nil, h, r, out, _, hout => by
    rw [processArrStep] at hout
    cases hout
    rfl
  | .cons v vs, h, r, out, hfree, hout => by
    rw [refFreeHL, Bool.and_eq_true] at hfree
    rw [processArrStep, Option.bind_eq_some] at hout
    obtain ⟨p, hp, hout⟩ := hout
    rw [Option.map_eq_some'] at hout
    obtain ⟨q, hq, hout⟩ := hout
    have h1 : p.2.1 = h := hrec hfree.1 hp
    have h2 : q.2.1 = p.2.1 := processArrStep_heap hrec hfree.2 hq
    rw [← hout]
    simpa using h2.trans h1

theorem processHV_refFree (E : Entropy) : ∀ (f : Nat) {v : HVal} {h : Heap}
    {r : Nat} {out}, refFreeHV v = true → processHV E f v h r = some out →
    out.2.1 = h
  | 0, v, h, r, out, _, hout => by cases hout
  | f + 1, v, h, r, out, hfree, hout => by
    cases v with
    | ref a => simp [refFreeHV] at hfree
    | arr xs =>
      rw [refFreeHV] at hfree
      rw [processHV, Option.map_eq_some'] at hout
      obtain ⟨p, hp, hout⟩ := hout
      have := processArrStep_heap (fun hv hp2 => processHV_refFree E f hv hp2) hfree hp
      rw [← hout]
      simpa using this
    | str s =>
      rw [processHV] at hout
      by_cases hm : isPre genHead s = true
      · rw [if_pos hm] at hout
        cases hout
        rfl
      · rw [if_neg hm] at hout
        cases hout
        rfl
    | int n =>
      rw [show processHV E (f + 1) (HVal.int n) h r = some (.int n, h, r) from rfl] at hout
      cases hout
      rfl
    | num q =>
      rw [show processHV E (f + 1) (HVal.num q) h r = some (.num q, h, r) from rfl] at hout
      cases hout
      rfl
    | bool b =>
      rw [show processHV E (f + 1) (HVal.bool b) h r = some (.bool b, h, r) from rfl] at hout
      cases hout
      rfl
    | null =>
      rw [show processHV E (f + 1) HVal.null h r = some (.null, h, r) from rfl] at hout
      cases hout
      rfl

theorem processDictStep_local
    {rec : HVal → Heap → Nat → Option (HVal × Heap × Nat)}
    (hrec : ∀ {v h r out}, refFreeHV v = true → rec v h r = some out → out.2.1 = h)
    {a : Nat} :
    ∀ {o : DictObj} {h : Heap} {r : Nat} {out},
      refFreeObj o = true → processDictStep rec a o h r = some out →
      ∀ x, x ≠ a → getObj out.1 x = getObj h x
  | [], h, r, out, _, hout, x, hx => by
    rw [processDictStep] at hout
    cases hout
    rfl
  | (k, v) :: rest, h, r, out, hfree, hout, x, hx => by
    rw [refFreeObj, List.all_cons, Bool.and_eq_true] at hfree
    rw [processDictStep, Option.bind_eq_some] at hout
    obtain ⟨p, hp, hout⟩ := hout
    have h1 : p.2.1 = h := hrec hfree.1 hp
    have h2 := processDictStep_local hrec hfree.2 hout x hx
    rw [h2, getObj_setObj_ne hx, h1]

theorem processDictStep_length
    {rec : HVal → Heap → Nat → Option (HVal × Heap × Nat)}
    (hrecL : ∀ {v h r out}, rec v h r = some out → out.2.1.length = h.length)
    {a : Nat} :
    ∀ {o : DictObj} {h : Heap} {r : Nat} {out},
      processDictStep rec a o h r = some out → out.1.length = h.length
  | [], h, r, out, hout => by
    rw [processDictStep] at hout
    cases hout
    rfl
  | (k, v) :: rest, h, r, out, hout => by
    rw [processDictStep, Option.bind_eq_some] at hout
    obtain ⟨p, hp, hout⟩ := hout
    have h1 : p.2.1.length = h.length := hrecL hp
    have h2 := processDictStep_length hrecL hout
    rw [h2, setObj_length, h1]

theorem processArrStep_length
    {rec : HVal → Heap → Nat → Option (HVal × Heap × Nat)}
    (hrecL : ∀ {v h r out}, rec v h r = some out → out.2.1.length = h.length) :
    ∀ {xs : HList} {h : Heap} {r : Nat} {out},
      processArrStep rec xs h r = some out → out.2.1.length = h.length
  | .nil, h, r, out, hout => by
    rw [processArrStep] at hout
    cases hout
    rfl
  | .cons v vs, h, r, out, hout => by
    rw [processArrStep, Option.bind_eq_some] at hout
    obtain ⟨p, hp, hout⟩ := hout
    rw [Option.map_eq_some'] at hout
    obtain ⟨q, hq, hout⟩ := hout
    have h1 : p.2.1.length = h.length := hrecL hp
    have h2 := processArrStep_length hrecL hq
    rw [← hout]
    simpa using h2.trans h1

theorem processHV_length (E : Entropy) : ∀ (f : Nat) {v : HVal} {h : Heap}
    {r : Nat} {out}, processHV E f v h r = some out → out.2.1.length = h.length
  | 0, v, h, r, out, hout => by cases hout
  | f + 1, v, h, r, out, hout => by
    cases v with
    | ref a =>
      rw [processHV, Option.map_eq_some'] at hout
      obtain ⟨p, hp, hout⟩ := hout
      have := processDictStep_length (fun hp2 => processHV_length E f hp2) hp
      rw [← hout]
      simpa using this
    | arr xs =>
      rw [processHV, Option.map_eq_some'] at hout
      obtain ⟨p, hp, hout⟩ := hout
      have := processArrStep_length (fun hp2 => processHV_length E f hp2) hp
      rw [← hout]
      simpa using this
    | str s =>
      rw [processHV] at hout
      by_cases hm : isPre genHead s = true
      · rw [if_pos hm] at hout
        cases hout
        rfl
      · rw [if_neg hm] at hout
        cases hout
        rfl
    | int n =>
      rw [show processHV E (f + 1) (HVal.int n) h r = some (.int n, h, r) from rfl] at hout
      cases hout
      rfl
    | num q =>
      rw [show processHV E (f + 1) (HVal.num q) h r = some (.num q, h, r) from rfl] at hout
      cases hout
      rfl
    | bool b =>
      rw [show processHV E (f + 1) (HVal.bool b) h r = some (.bool b, h, r) from rfl] at hout
      cases hout
      rfl
    | null =>
      rw [show processHV E (f + 1) HVal.null h r = some (.null, h, r) from rfl] at hout
      cases hout
      rfl

theorem processHV_ref_local (E : Entropy) : ∀ (f : Nat) {a : Nat} {h : Heap}
    {r : Nat} {out}, refFreeObj (getObj h a) = true →
    processHV E f (.ref a) h r = some out →
    (∀ x, x ≠ a → getObj out.2.1 x = getObj h x) ∧ out.2.1.length = h.length
  | 0, a, h, r, out, _, hout => by cases hout
  | f + 1, a, h, r, out, hobj, hout => by
    rw [processHV, Option.map_eq_some'] at hout
    obtain ⟨p, hp, hout⟩ := hout
    constructor
    · intro x hx
      have := processDictStep_local (fun hv hp2 => processHV_refFree E f hv hp2) hobj hp x hx
      rw [← hout]
      simpa using this
    · have := processDictStep_length (fun hp2 => processHV_length E f hp2) hp
      rw [← hout]
      simpa using this

theorem prepare_preserves (E : Entropy) (fuel : Nat) {a b c : Nat} {h : Heap}
    {r : Nat} {out : Heap × Nat}
    (hout : prepareRequestData E fuel a b c h r = some out)
    (hfa : refFreeObj (getObj h a) = true) (hfb : refFreeObj (getObj h b) = true)
    (hfc : refFreeObj (getObj h c) = true)
    (hab : a ≠ b) (hac : a ≠ c) (hbc : b ≠ c) :
    (∀ x, x ≠ a → x ≠ b → x ≠ c → getObj out.1 x = getObj h x) ∧
    out.1.length = h.length := by
  rw [prepareRequestData, Option.bind_eq_some] at hout
  obtain ⟨p1, hp1, hout⟩ := hout
  rw [Option.bind_eq_some] at hout
  obtain ⟨p2, hp2, hout⟩ := hout
  rw [Option.map_eq_some'] at hout
  obtain ⟨p3, hp3, hout⟩ := hout
  obtain ⟨l1, len1⟩ := processHV_ref_local E fuel hfa hp1
  have hgb : getObj p1.2.1 b = getObj h b := l1 b (Ne.symm hab)
  have hfb1 : refFreeObj (getObj p1.2.1 b) = true := by rw [hgb]; exact hfb
  obtain ⟨l2, len2⟩ := processHV_ref_local E fuel hfb1 hp2
  have hgc : getObj p2.2.1 c = getObj h c := by
    rw [l2 c (Ne.symm hbc), l1 c (Ne.symm hac)]
  have hfc2 : refFreeObj (getObj p2.2.1 c) = true := by rw [hgc]; exact hfc
  obtain ⟨l3, len3⟩ := processHV_ref_local E fuel hfc2 hp3
  subst hout
  constructor
  · intro x hxa hxb hxc
    show getObj p3.2.1 x = getObj h x
    rw [l3 x hxc, l2 x hxb, l1 x hxa]
  · show p3.2.1.length = h.length
    rw [len3, len2, len1]

theorem runIteration_preserves (E : Entropy) (fuel : Nat) {hA bA pA : Nat}
    {h : Heap} {r : Nat} {out : Heap × Nat × Option JVal}
    (hout : runIteration E fuel hA bA pA h r = some out)
    (hfa : refFreeObj (getObj h hA) = true) (hfb : refFreeObj (getObj h bA) = true)
    (hfc : refFreeObj (getObj h pA) = true)
    (hAlt : hA < h.length) (hBlt : bA < h.length) (hPlt : pA < h.length) :
    (∀ x, x < h.length → getObj out.1 x = getObj h x) ∧ h.length ≤ out.1.length := by
  rw [runIteration] at hout
  simp only [copyDict, allocObj, List.length_append, List.length_cons,
    List.length_nil] at hout
  rw [getObj_append_lt hBlt] at hout
  have hP1 : pA < (h ++ [getObj h hA]).length := by
    simp only [List.length_append, List.length_cons, List.length_nil]
    omega
  rw [getObj_append_lt hP1, getObj_append_lt hPlt] at hout
  rw [Option.map_eq_some'] at hout
  obtain ⟨p, hp, hout⟩ := hout
  have e1 : getObj (((h ++ [getObj h hA]) ++ [getObj h bA]) ++ [getObj h pA])
      h.length = getObj h hA := by
    have l2 : h.length < ((h ++ [getObj h hA]) ++ [getObj h bA]).length := by
      simp only [List.length_append, List.length_cons, List.length_nil]
      omega
    have l1 : h.length < (h ++ [getObj h hA]).length := by
      simp only [List.length_append, List.length_cons, List.length_nil]
      omega
    rw [getObj_append_lt l2, getObj_append_lt l1, getObj_append_self]
  have e2 : getObj (((h ++ [getObj h hA]) ++ [getObj h bA]) ++ [getObj h pA])
      (h.length + 1) = getObj h bA := by
    have l2 : h.length + 1 < ((h ++ [getObj h hA]) ++ [getObj h bA]).length := by
      simp only [List.length_append, List.length_cons, List.length_nil]
      omega
    rw [getObj_append_lt l2,
      show h.length + 1 = (h ++ [getObj h hA]).length from by
        simp only [List.length_append, List.length_cons, List.length_nil],
      getObj_append_self]
  have e3 : getObj (((h ++ [getObj h hA]) ++ [getObj h bA]) ++ [getObj h pA])
      (h.length + 1 + 1) = getObj h pA := by
    rw [show h.length + 1 + 1 = ((h ++ [getObj h hA]) ++ [getObj h bA]).length from by
        simp only [List.length_append, List.length_cons, List.length_nil],
      getObj_append_self]
  have hfa3 : refFreeObj (getObj (((h ++ [getObj h hA]) ++ [getObj h bA]) ++
      [getObj h pA]) h.length) = true := by rw [e1]; exact hfa
  have hfb3 : refFreeObj (getObj (((h ++ [getObj h hA]) ++ [getObj h bA]) ++
      [getObj h pA]) (h.length + 1)) = true := by rw [e2]; exact hfb
  have hfc3 : refFreeObj (getObj (((h ++ [getObj h hA]) ++ [getObj h bA]) ++
      [getObj h pA]) (h.length + 1 + 1)) = true := by rw [e3]; exact hfc
  obtain ⟨lall, lenall⟩ := prepare_preserves E fuel hp hfa3 hfb3 hfc3
    (by omega) (by omega) (by omega)
  subst hout
  constructor
  · intro x hx
    show getObj p.1 x = getObj h x
    rw [lall x (by omega) (by omega) (by omega)]
    have m2 : x < ((h ++ [getObj h hA]) ++ [getObj h bA]).length := by
      simp only [List.length_append, List.length_cons, List.length_nil]
      omega
    have m1 : x < (h ++ [getObj h hA]).length := by
      simp only [List.length_append, List.length_cons, List.length_nil]
      omega
    rw [getObj_append_lt m2, getObj_append_lt m1, getObj_append_lt hx]
  · show h.length ≤ p.1.length
    rw [lenall]
    simp only [List.length_append, List.length_cons, List.length_nil]
    omega

theorem runIterations_preserve (E : Entropy) (fuel : Nat) {hA bA pA : Nat}
    {h0 : Heap}
    (hfa : refFreeObj (getObj h0 hA) = true) (hfb : refFreeObj (getObj h0 bA) = true)
    (hfc : refFreeObj (getObj h0 pA) = true)
    (hAlt : hA < h0.length) (hBlt : bA < h0.length) (hPlt : pA < h0.length) :
    ∀ (n : Nat) {r : Nat} {out : Heap × Nat × List (Option JVal)},
      runIterations E fuel hA bA pA n h0 r = some out →
      (∀ x, x < h0.length → getObj out.1 x = getObj h0 x) ∧
      h0.length ≤ out.1.length
  | 0, r, out, hout => by
    rw [runIterations] at hout
    cases hout
    exact ⟨fun x _ => rfl, Nat.le_refl _⟩
  | n + 1, r, out, hout => by
    rw [runIterations, Option.bind_eq_some] at hout
    obtain ⟨p, hp, hout⟩ := hout
    rw [Option.map_eq_some'] at hout
    obtain ⟨q, hq, hout⟩ := hout
    obtain ⟨ih1, ih2⟩ := runIterations_preserve E fuel hfa hfb hfc hAlt hBlt hPlt n hp
    have hfa' : refFreeObj (getObj p.1 hA) = true := by rw [ih1 hA hAlt]; exact hfa
    have hfb' : refFreeObj (getObj p.1 bA) = true := by rw [ih1 bA hBlt]; exact hfb
    have hfc' : refFreeObj (getObj p.1 pA) = true := by rw [ih1 pA hPlt]; exact hfc
    obtain ⟨st1, st2⟩ := runIteration_preserves E fuel hq hfa' hfb' hfc'
      (Nat.lt_of_lt_of_le hAlt ih2) (Nat.lt_of_lt_of_le hBlt ih2)
      (Nat.lt_of_lt_of_le hPlt ih2)
    subst hout
    constructor
    · intro x hx
      show getObj q.1 x = getObj h0 x
      rw [st1 x (Nat.lt_of_lt_of_le hx ih2), ih1 x hx]
    · show h0.length ≤ q.1.length
      exact Nat.le_trans ih2 st2

/-- C1 (amended): each iteration of `run_performance_test` expands a shallow
copy of the template dicts, so *top-level* template content is never mutated:
whenever every value of the `headers`, `body` and `params` template dicts is
reference-free (contains no nested sub-object), the three template dicts are
unchanged after any number of iterations, and every iteration therefore
re-expands the template's own markers.  When a value does contain a nested
sub-object, the shallow copy shares it, in-place expansion mutates it through
the shared reference, and later iterations reuse the first iteration's
expansion (the behaviour exhibited by the counterexample). -/
theorem claimC1_frame (E : Entropy) (fuel n : Nat) (hA bA pA : Nat) (h0 : Heap)
    (r : Nat) (out : Heap × Nat × List (Option JVal))
    (hres : runIterations E fuel hA bA pA n h0 r = some out)
    (hfa : refFreeObj (getObj h0 hA) = true) (hfb : refFreeObj (getObj h0 bA) = true)
    (hfc : refFreeObj (getObj h0 pA) = true)
    (hAlt : hA < h0.length) (hBlt : bA < h0.length) (hPlt : pA < h0.length) :
    getObj out.1 hA = getObj h0 hA ∧ getObj out.1 bA = getObj h0 bA ∧
    getObj out.1 pA = getObj h0 pA := by
  obtain ⟨l, -⟩ := runIterations_preserve E fuel hfa hfb hfc hAlt hBlt hPlt n hres
  exact ⟨l hA hAlt, l bA hBlt, l pA hPlt⟩

set_option maxHeartbeats 2000000 in
/-- Closed instance of the amended C1 over the reference-free template
`heapF`: after one iteration the three template dicts are unchanged. -/
theorem claimC1_frame_witness :
    (runIterations entropy0 3 0 1 2 1 heapF 0 = some c1wRes ∧
      refFreeObj (getObj heapF 0) = true ∧ refFreeObj (getObj heapF 1) = true ∧
      refFreeObj (getObj heapF 2) = true ∧
      0 < heapF.length ∧ 1 < heapF.length ∧ 2 < heapF.length) ∧
    (getObj c1wRes.1 0 = getObj heapF 0 ∧ getObj c1wRes.1 1 = getObj heapF 1 ∧
      getObj c1wRes.1 2 = getObj heapF 2) :=
  ⟨⟨by decide, by decide, by decide, by decide, by decide, by decide, by decide⟩,
    claimC1_frame entropy0 3 1 0 1 2 heapF 0 c1wRes (by decide) (by decide)
      (by decide) (by decide) (by decide) (by decide) (by decide)⟩
